import Mathlib

/-!
Verification of the MIP converter (`converter.py`): a pipeline that loads a
3-D NIfTI volume, extracts three maximum-intensity projections, clips outlier
intensities by percentile, rescales to the 8-bit displayable range, optionally
inverts, rotates, and exports three PNG images.

The numeric code is embedded shallowly over exact rationals: a 2-D numpy array
becomes `Img ℚ` (dimensions plus an entry function), the 3-D volume becomes
`Vol`, and each Python function becomes a Lean function of the same name.
Machine floats are modelled by `ℚ`; the `astype(np.uint8)` cast is modelled by
floor followed by reduction mod 2^8.
-/

namespace MipsConverter

/-- A 2-D numeric array (a numpy ndarray of shape `rows × cols`), the data
carried between the pipeline stages. -/
structure Img (α : Type) where
  rows : ℕ
  cols : ℕ
  val : Fin rows → Fin cols → α

/-- Total element access with a default value, used to state element-wise
properties without dependent index types. -/
def Img.get {α : Type} (m : Img α) (d : α) (i j : ℕ) : α :=
  if h : i < m.rows ∧ j < m.cols then m.val ⟨i, h.1⟩ ⟨j, h.2⟩ else d

/-- Element-wise map over a 2-D array, modelling a broadcast numpy operation
(comparison-masked assignment, scalar arithmetic, or a PIL point lookup). -/
def mapImg {α β : Type} (f : α → β) (m : Img α) : Img β :=
  ⟨m.rows, m.cols, fun i j => f (m.val i j)⟩

/-- All entries of the array in row-major order (numpy ravel order). -/
def flatten {α : Type} (m : Img α) : List α :=
  ((List.finRange m.rows).map (fun i => (List.finRange m.cols).map (fun j => m.val i j))).flatten

/-- numpy max-reduce (`np.amax` along an axis, `ndarray.max()`): left fold of
`max` over the entries.  numpy raises on empty data; the model returns 0 there
(every claim is stated for nonempty data only). -/
def npMax (xs : List ℚ) : ℚ := xs.foldl max (xs.headD 0)

/-- numpy min-reduce (`ndarray.min()`), dual to `npMax`. -/
def npMin (xs : List ℚ) : ℚ := xs.foldl min (xs.headD 0)

/-- Insertion of one element into a sorted list of rationals. -/
def insortQ (x : ℚ) : List ℚ → List ℚ
  | [] => [x]
  | y :: l => if x ≤ y then x :: y :: l else y :: insortQ x l

/-- Insertion sort of rationals, modelling the sort inside `np.percentile`. -/
def sortQ : List ℚ → List ℚ
  | [] => []
  | x :: l => insortQ x (sortQ l)

/-- `np.percentile(xs, p)` with the default linear interpolation: the value at
virtual index `p/100 * (n-1)` of the sorted data.  numpy raises `ValueError`
when `p` is outside `[0, 100]` and an error on empty data; both are modelled
by `Except.error`. -/
def np_percentile (xs : List ℚ) (p : ℚ) : Except Unit ℚ :=
  if p < 0 ∨ 100 < p then Except.error ()
  else if xs.isEmpty then Except.error ()
  else
    let s := sortQ xs
    let n := s.length
    let h : ℚ := p * ((n : ℚ) - 1) / 100
    let i : ℕ := (⌊h⌋).toNat
    let lo := s.getD i 0
    let hi := s.getD (min (i + 1) (n - 1)) 0
    Except.ok (lo + (h - (i : ℚ)) * (hi - lo))

/-- `set_min_max_threshold_value` (converter.py lines 25-45).  Computes the
threshold value at `threshold_percentile`, then at `100 - threshold_percentile`,
and only then performs the two masked assignments, first raising entries below
the min threshold, then lowering entries above the max threshold.  The
`try/except` around the percentile computations is modelled by the error
branches: they return the array unmodified together with the flag `true`
recording that an error was logged (`log.error`); the happy path returns the
clipped array with flag `false`.  No exception escapes: the function is total. -/
def set_min_max_threshold_value (image_data : Img ℚ) (threshold_percentile : ℚ) :
    Img ℚ × Bool :=
  match np_percentile (flatten image_data) threshold_percentile with
  | Except.error _ => (image_data, true)
  | Except.ok max_threshold_value =>
    match np_percentile (flatten image_data) (100 - threshold_percentile) with
    | Except.error _ => (image_data, true)
    | Except.ok min_threshold_value =>
      let d1 := mapImg (fun v => if v < min_threshold_value then min_threshold_value else v)
        image_data
      let d2 := mapImg (fun v => if max_threshold_value < v then max_threshold_value else v) d1
      (d2, false)

/-- The divisor `image_data.max() - image_data.min()` used by the scaler.
On a constant array it is 0 and the Python code divides by zero (numpy floats
give `0/0 = NaN` with an undefined `uint8` cast); rational division in the
model is total with `x / 0 = 0`, so claims about the zero-range case are
settled from this divisor, not from the totalised division. -/
def scaleDivisor (image_data : Img ℚ) : ℚ :=
  npMax (flatten image_data) - npMin (flatten image_data)

/-- `astype(np.uint8)` applied to a nonnegative in-range float: truncation
toward zero (floor, for nonnegative values) reduced mod 2^8. -/
def toUInt8 (q : ℚ) : ℕ := (⌊q⌋).toNat % 256

/-- `scale_image_data` (converter.py lines 48-53):
`(image_data - min) * 255 / (max - min)` cast to `uint8`. -/
def scale_image_data (image_data : Img ℚ) : Img ℕ :=
  let mn := npMin (flatten image_data)
  mapImg (fun v => toUInt8 ((v - mn) * 255 / scaleDivisor image_data)) image_data

/-- `PIL.ImageOps.invert` on an 8-bit grayscale image: the point lookup
`v ↦ 255 - v`. -/
def imageops_invert (m : Img ℕ) : Img ℕ := mapImg (fun v => 255 - v) m

/-- An exact 90-degree counter-clockwise rotation of a 2-D pixel array
(`np.rot90`; also what `PIL.Image.transpose(ROTATE_90)` performs): entry
`(i, j)` of the result is entry `(j, cols - 1 - i)` of the input. -/
def rot90ccw {α : Type} (m : Img α) : Img α where
  rows := m.cols
  cols := m.rows
  val i j := m.val j ⟨m.cols - 1 - i.val,
    Nat.lt_of_le_of_lt (Nat.sub_le _ _) (Nat.sub_lt i.pos Nat.one_pos)⟩

/-- The affine path of `PIL.Image.rotate(90)` with the default
`expand=False`, `resample=NEAREST`, `fillcolor=None`, taken whenever the image
is not square.  Pillow keeps the original canvas size and samples the input at
the inverse rotation about the image center `(w/2, h/2)`: output pixel
`(x, y)` reads input pixel `(⌊w/2 + h/2 - y - 1/2⌋, ⌊x + 1/2 + h/2 - w/2⌋)`,
and out-of-bounds samples are filled with black (0).  For a non-square image
this crops part of the rotated content and pads with zeros. -/
def pil_affine_rotate90 (m : Img ℕ) : Img ℕ where
  rows := m.rows
  cols := m.cols
  val y x :=
    let w : ℚ := (m.cols : ℚ)
    let h : ℚ := (m.rows : ℚ)
    let xin : ℤ := ⌊w / 2 + h / 2 - (y.val : ℚ) - 1/2⌋
    let yin : ℤ := ⌊(x.val : ℚ) + 1/2 + h / 2 - w / 2⌋
    if hb : 0 ≤ xin ∧ xin < (m.cols : ℤ) ∧ 0 ≤ yin ∧ yin < (m.rows : ℤ) then
      m.val ⟨yin.toNat, by omega⟩ ⟨xin.toNat, by omega⟩
    else 0

/-- `PIL.Image.rotate(90)` as called by `process_mips`: Pillow takes the exact
`transpose(ROTATE_90)` fast path when the image is square (width equals
height) and otherwise the cropping affine transform. -/
def pil_rotate90 (m : Img ℕ) : Img ℕ :=
  if m.rows = m.cols then rot90ccw m else pil_affine_rotate90 m

/-- `process_mips` (converter.py lines 56-83): threshold-clip, scale,
convert to a PIL image (`Image.fromarray`, which keeps the pixel grid),
invert when requested, and rotate with `img.rotate(90)`. -/
def process_mips (image_data : Img ℚ) (threshold_percentile : ℚ) (invert_image : Bool) :
    Img ℕ :=
  let updated := (set_min_max_threshold_value image_data threshold_percentile).1
  let scaled := scale_image_data updated
  let img := scaled
  let img := if invert_image then imageops_invert img else img
  pil_rotate90 img

/-- Boolean test that `pat` begins the list `s` (Python `str.startswith` on the
character level, used to locate a separator occurrence). -/
def leadsWith : List Char → List Char → Bool
  | [], _ => true
  | _ :: _, [] => false
  | a :: pat, b :: s => a == b && leadsWith pat s

/-- The characters of `s` strictly before the first occurrence of `sep`
(all of `s` when `sep` does not occur): Python `s.split(sep)[0]`. -/
def splitFirst (sep : List Char) : List Char → List Char
  | [] => []
  | c :: rest => if leadsWith sep (c :: rest) then [] else c :: splitFirst sep rest

/-- `create_mips_file_name` (converter.py lines 86-90):
`filename.split(".nii")[0] + "_" + file_type`. -/
def create_mips_file_name (filename : String) (file_type : String) : String :=
  String.mk (splitFirst ".nii".toList filename.toList) ++ "_" ++ file_type

/-- Boolean test that `suff` ends the list `s`. -/
def trailsWith (suff s : List Char) : Bool := leadsWith suff.reverse s.reverse

/-- Modelled from the spec: "the input base name with the volume-format suffix
stripped" — removes a trailing `.nii.gz` or `.nii` volume suffix when present
and otherwise leaves the name unchanged.  Stated only for the refinement
comparison with `create_mips_file_name`, which instead truncates at the first
occurrence of `.nii` anywhere in the name. -/
def spec_strip_volume_suffix (filename : String) : String :=
  let cs := filename.toList
  if trailsWith ".nii.gz".toList cs then String.mk (cs.take (cs.length - 7))
  else if trailsWith ".nii".toList cs then String.mk (cs.take (cs.length - 4))
  else filename

/-- The output file name as the spec describes it: stripped base name plus
`"_" ++ file_type`. -/
def spec_mips_file_name (filename : String) (file_type : String) : String :=
  spec_strip_volume_suffix filename ++ "_" ++ file_type

/-- Modelled from the spec: the simultaneous element-wise reading of the
Intensity Clipper contract, "replaces every element below `low` with `low` and
every element above `high` with `high`; no other element is changed".  Stated
only for the refinement comparison with `set_min_max_threshold_value`. -/
def claimedClip (m : Img ℚ) (lo hi : ℚ) : Img ℚ :=
  mapImg (fun v => if v < lo then lo else if hi < v then hi else v) m

/-- `os.path.join` for one component on a POSIX system. -/
def os_path_join (a b : String) : String :=
  if b.startsWith "/" then b
  else if a = "" ∨ a.endsWith "/" then a ++ b
  else a ++ "/" ++ b

deriving instance DecidableEq for Except

/-- A 3-D volume of shape `(X, Y, Z)`, the array returned by
`nifti_file.get_fdata()`. -/
structure Vol where
  X : ℕ
  Y : ℕ
  Z : ℕ
  val : Fin X → Fin Y → Fin Z → ℚ

/-- `get_image_slices_data` (converter.py lines 93-99): the maximum-intensity
projections `np.amax(image_data, 0)`, `np.amax(image_data, 1)`,
`np.amax(image_data, 2)`, returned as (sagittal, coronal, axial). -/
def get_image_slices_data (image_data : Vol) : Img ℚ × Img ℚ × Img ℚ :=
  let sagittal : Img ℚ := ⟨image_data.Y, image_data.Z, fun j k =>
    npMax ((List.finRange image_data.X).map (fun i => image_data.val i j k))⟩
  let coronal : Img ℚ := ⟨image_data.X, image_data.Z, fun i k =>
    npMax ((List.finRange image_data.Y).map (fun j => image_data.val i j k))⟩
  let axial : Img ℚ := ⟨image_data.X, image_data.Y, fun i j =>
    npMax ((List.finRange image_data.Z).map (fun k => image_data.val i j k))⟩
  (sagittal, coronal, axial)

/-- `check_nifti_dimension` (converter.py lines 102-109): the shape must have
exactly 3 dimensions.  The Python code also checks `isinstance(v, int)` for
every entry; nibabel shapes are tuples of ints, which the model reflects by
using `List ℕ`, making that conjunct identically true. -/
def check_nifti_dimension (nifti_image_shape : List ℕ) : Bool :=
  nifti_image_shape.length == 3

/-- The loaded NIfTI container: its shape tuple and the dense data array
behind `get_fdata()` (total over indices; only the region within the shape is
ever read). -/
structure Nifti where
  shape : List ℕ
  data : ℕ → ℕ → ℕ → ℚ

/-- The 3-D array `get_fdata()` of a container whose shape check passed. -/
def niftiVol (nf : Nifti) : Vol :=
  ⟨nf.shape.getD 0 0, nf.shape.getD 1 0, nf.shape.getD 2 0,
   fun i j k => nf.data i.val j.val k.val⟩

/-- Observable outcome of one driver run: either `os.sys.exit(code)` after
logging an error, with the list of files already written, or a successful
completion with the three written files. -/
inductive MainResult where
  | exited (code : ℕ) (errorLogged : Bool) (written : List String)
  | done (written : List String)
deriving DecidableEq

/-- `main` (converter.py lines 112-167).  External effects are explicit
parameters: `load_result` is the outcome of `nib.load` (`ImageFileError`
caught → exit 1), and `save_ok` tells whether `Image.save` succeeds on a given
path (an exception during a save → exit 1, keeping the files already
written).  The dimension check runs before any rendering or saving. -/
def main (output_folder : String) (load_result : Except Unit Nifti) (filename : String)
    (threshold_percentile : ℚ) (invert_image : Bool) (save_ok : String → Bool) : MainResult :=
  match load_result with
  | Except.error _ => MainResult.exited 1 true []
  | Except.ok nifti_file =>
    if check_nifti_dimension nifti_file.shape then
      let image_data := niftiVol nifti_file
      let slices := get_image_slices_data image_data
      let sagittal := process_mips slices.1 threshold_percentile invert_image
      let coronal := process_mips slices.2.1 threshold_percentile invert_image
      let axial := process_mips slices.2.2 threshold_percentile invert_image
      let sagPath := os_path_join output_folder (create_mips_file_name filename "MIPs_sag.png")
      let corPath := os_path_join output_folder (create_mips_file_name filename "MIPs_cor.png")
      let axPath := os_path_join output_folder (create_mips_file_name filename "MIPs_ax.png")
      if save_ok sagPath then
        if save_ok corPath then
          if save_ok axPath then MainResult.done [sagPath, corPath, axPath]
          else MainResult.exited 1 true [sagPath, corPath]
        else MainResult.exited 1 true [sagPath]
      else MainResult.exited 1 true []
    else MainResult.exited 1 true []

/-- Concrete 1×2 array `[[0, 10]]`, used as a small test input. -/
def exWide : Img ℚ := ⟨1, 2, fun _ j => if j.val = 0 then 0 else 10⟩

/-- Concrete 2×2 array `[[0, 1], [2, 3]]`, a small square test input. -/
def exSquare : Img ℚ := ⟨2, 2, fun i j => (i.val : ℚ) * 2 + (j.val : ℚ)⟩

/-- Concrete 2×2 constant array `[[5, 5], [5, 5]]` (zero intensity range). -/
def exConst : Img ℚ := ⟨2, 2, fun _ _ => 5⟩

/-- Concrete 2×3×4 volume of pairwise-distinct values `12i + 4j + k`. -/
def exVol : Vol := ⟨2, 3, 4, fun i j k =>
  (i.val : ℚ) * 12 + (j.val : ℚ) * 4 + (k.val : ℚ)⟩

/-! ### Helper lemmas about the fold-based reductions -/

theorem le_foldl_max (l : List ℚ) (a : ℚ) : a ≤ l.foldl max a := by
  induction l generalizing a with
  | nil => exact le_refl a
  | cons b t ih => exact le_trans (le_max_left a b) (ih (max a b))

theorem foldl_max_choice (l : List ℚ) (a : ℚ) : l.foldl max a = a ∨ l.foldl max a ∈ l := by
  induction l generalizing a with
  | nil => exact Or.inl rfl
  | cons b t ih =>
    rcases ih (max a b) with h | h
    · rcases max_choice a b with hab | hab
      · exact Or.inl (by rw [List.foldl_cons, h, hab])
      · exact Or.inr (by rw [List.foldl_cons, h, hab]; exact List.mem_cons_self b t)
    · exact Or.inr (List.mem_cons_of_mem b h)

theorem le_foldl_max_of_mem {x : ℚ} {l : List ℚ} (hx : x ∈ l) (a : ℚ) :
    x ≤ l.foldl max a := by
  induction l generalizing a with
  | nil => cases hx
  | cons b t ih =>
    rcases List.mem_cons.1 hx with h | h
    · subst h; exact le_trans (le_max_right a x) (le_foldl_max t (max a x))
    · exact ih h (max a b)

theorem foldl_min_le (l : List ℚ) (a : ℚ) : l.foldl min a ≤ a := by
  induction l generalizing a with
  | nil => exact le_refl a
  | cons b t ih => exact le_trans (ih (min a b)) (min_le_left a b)

theorem foldl_min_choice (l : List ℚ) (a : ℚ) : l.foldl min a = a ∨ l.foldl min a ∈ l := by
  induction l generalizing a with
  | nil => exact Or.inl rfl
  | cons b t ih =>
    rcases ih (min a b) with h | h
    · rcases min_choice a b with hab | hab
      · exact Or.inl (by rw [List.foldl_cons, h, hab])
      · exact Or.inr (by rw [List.foldl_cons, h, hab]; exact List.mem_cons_self b t)
    · exact Or.inr (List.mem_cons_of_mem b h)

theorem foldl_min_le_of_mem {x : ℚ} {l : List ℚ} (hx : x ∈ l) (a : ℚ) :
    l.foldl min a ≤ x := by
  induction l generalizing a with
  | nil => cases hx
  | cons b t ih =>
    rcases List.mem_cons.1 hx with h | h
    · subst h; exact le_trans (foldl_min_le t (min a x)) (min_le_right a x)
    · exact ih h (min a b)

theorem npMax_mem {xs : List ℚ} (h : xs ≠ []) : npMax xs ∈ xs := by
  match xs, h with
  | x :: t, _ =>
    unfold npMax
    rcases foldl_max_choice (x :: t) ((x :: t).headD 0) with h1 | h1
    · rw [h1]; exact List.mem_cons_self x t
    · exact h1

theorem le_npMax {x : ℚ} {xs : List ℚ} (hx : x ∈ xs) : x ≤ npMax xs :=
  le_foldl_max_of_mem hx (xs.headD 0)

theorem npMin_mem {xs : List ℚ} (h : xs ≠ []) : npMin xs ∈ xs := by
  match xs, h with
  | x :: t, _ =>
    unfold npMin
    rcases foldl_min_choice (x :: t) ((x :: t).headD 0) with h1 | h1
    · rw [h1]; exact List.mem_cons_self x t
    · exact h1

theorem npMin_le {x : ℚ} {xs : List ℚ} (hx : x ∈ xs) : npMin xs ≤ x :=
  foldl_min_le_of_mem hx (xs.headD 0)

theorem val_mem_flatten {α : Type} (m : Img α) (i : Fin m.rows) (j : Fin m.cols) :
    m.val i j ∈ flatten m := by
  unfold flatten
  refine List.mem_flatten.2 ⟨(List.finRange m.cols).map (fun j => m.val i j), ?_, ?_⟩
  · exact List.mem_map_of_mem _ (List.mem_finRange i)
  · exact List.mem_map_of_mem _ (List.mem_finRange j)

/-! ### Helper lemmas about the array operations -/

theorem Img.get_of_lt {α : Type} (m : Img α) (d : α) {i j : ℕ}
    (h1 : i < m.rows) (h2 : j < m.cols) : m.get d i j = m.val ⟨i, h1⟩ ⟨j, h2⟩ :=
  dif_pos ⟨h1, h2⟩

theorem get_mapImg {α β : Type} (f : α → β) (m : Img α) (d : α) (e : β) {i j : ℕ}
    (h1 : i < m.rows) (h2 : j < m.cols) :
    (mapImg f m).get e i j = f (m.get d i j) := by
  rw [Img.get_of_lt m d h1 h2, Img.get_of_lt (mapImg f m) e h1 h2]
  rfl

theorem get_rot90ccw {α : Type} (w : Img α) (d : α) {i j : ℕ}
    (h1 : i < w.cols) (h2 : j < w.rows) :
    (rot90ccw w).get d i j = w.get d j (w.cols - 1 - i) := by
  rw [Img.get_of_lt (rot90ccw w) d h1 h2, Img.get_of_lt w d h2 (by omega)]
  rfl

theorem toUInt8_le_255 (q : ℚ) : toUInt8 q ≤ 255 :=
  Nat.le_of_lt_succ (Nat.mod_lt _ (by norm_num))

theorem toUInt8_mono {a b : ℚ} (hab : a ≤ b) (hb : b ≤ 255) : toUInt8 a ≤ toUInt8 b := by
  unfold toUInt8
  have h1 : ⌊a⌋ ≤ ⌊b⌋ := Int.floor_mono hab
  have h2 : (⌊b⌋ : ℚ) ≤ 255 := le_trans (Int.floor_le b) hb
  have h3 : ⌊b⌋ ≤ 255 := by exact_mod_cast h2
  omega

theorem npMax_isGreatest {n : ℕ} (hn : 0 < n) (f : Fin n → ℚ) :
    IsGreatest {q : ℚ | ∃ i : Fin n, q = f i} (npMax ((List.finRange n).map f)) := by
  have hne : (List.finRange n).map f ≠ [] := by
    apply List.ne_nil_of_length_pos
    simpa using hn
  constructor
  · rcases List.mem_map.1 (npMax_mem hne) with ⟨i, hi, hval⟩
    exact ⟨i, hval.symm⟩
  · rintro q ⟨i, rfl⟩
    exact le_npMax (List.mem_map_of_mem f (List.mem_finRange i))

theorem clip_rows (m : Img ℚ) (p : ℚ) :
    (set_min_max_threshold_value m p).1.rows = m.rows := by
  unfold set_min_max_threshold_value
  cases np_percentile (flatten m) p with
  | error e => rfl
  | ok hi =>
    cases np_percentile (flatten m) (100 - p) with
    | error e => rfl
    | ok lo => rfl

theorem clip_cols (m : Img ℚ) (p : ℚ) :
    (set_min_max_threshold_value m p).1.cols = m.cols := by
  unfold set_min_max_threshold_value
  cases np_percentile (flatten m) p with
  | error e => rfl
  | ok hi =>
    cases np_percentile (flatten m) (100 - p) with
    | error e => rfl
    | ok lo => rfl


/-! ### Claim C1: Projection Extractor -/

/-- The conclusion of claim C1: the three projections have shapes
`(Y, Z)`, `(X, Z)`, `(X, Y)` respectively, and every entry is the maximum of
the volume's values along the collapsed axis at that index. -/
def projectionsSpec (v : Vol) : Prop :=
  (get_image_slices_data v).1.rows = v.Y ∧ (get_image_slices_data v).1.cols = v.Z ∧
  (get_image_slices_data v).2.1.rows = v.X ∧ (get_image_slices_data v).2.1.cols = v.Z ∧
  (get_image_slices_data v).2.2.rows = v.X ∧ (get_image_slices_data v).2.2.cols = v.Y ∧
  (∀ (j : Fin v.Y) (k : Fin v.Z),
    IsGreatest {q : ℚ | ∃ i : Fin v.X, q = v.val i j k} ((get_image_slices_data v).1.val j k)) ∧
  (∀ (i : Fin v.X) (k : Fin v.Z),
    IsGreatest {q : ℚ | ∃ j : Fin v.Y, q = v.val i j k} ((get_image_slices_data v).2.1.val i k)) ∧
  (∀ (i : Fin v.X) (j : Fin v.Y),
    IsGreatest {q : ℚ | ∃ k : Fin v.Z, q = v.val i j k} ((get_image_slices_data v).2.2.val i j))

/-- C1 (confirmed): for every 3-D volume of shape `(X, Y, Z)` with all
dimensions positive, `get_image_slices_data` returns three 2-D arrays of
shapes `(Y, Z)`, `(X, Z)`, `(X, Y)` (sagittal, coronal, axial), and each
element of each projection is the maximum of the volume's values along the
collapsed axis at the corresponding index. -/
theorem C1_projection_extractor (v : Vol) (hX : 0 < v.X) (hY : 0 < v.Y) (hZ : 0 < v.Z) :
    projectionsSpec v := by
  refine ⟨rfl, rfl, rfl, rfl, rfl, rfl, ?_, ?_, ?_⟩
  · intro j k
    exact npMax_isGreatest hX (fun i => v.val i j k)
  · intro i k
    exact npMax_isGreatest hY (fun j => v.val i j k)
  · intro i j
    exact npMax_isGreatest hZ (fun k => v.val i j k)

/-- Witness for C1 at the concrete 2×3×4 volume `exVol`. -/
theorem C1_witness : projectionsSpec exVol :=
  C1_projection_extractor exVol (by decide) (by decide) (by decide)

/-! ### Claims C2, C3, C9: Intensity Clipper -/

/-- C2 counterexample: at the 1×2 array `[[0, 10]]` with percentile `p = 0`,
the percentiles are `high = 0` and `low = 10`, and the element `0` — which is
below `low` and not above `high`, so the claim demands it become `low = 10` —
ends up as `0`: the two sequential masked assignments first raise it to `10`
and then, because `10 > high`, lower it to `0`.  The code therefore differs
from the claimed simultaneous element-wise replacement. -/
theorem C2_counterexample :
    np_percentile (flatten exWide) 0 = Except.ok 0 ∧
    np_percentile (flatten exWide) (100 - 0) = Except.ok 10 ∧
    (set_min_max_threshold_value exWide 0).1.get 0 0 0 = 0 ∧
    (claimedClip exWide 10 0).get 0 0 0 = 10 ∧
    (set_min_max_threshold_value exWide 0).1.get 0 0 0 ≠ (claimedClip exWide 10 0).get 0 0 0 := by
  with_unfolding_all decide

/-- C2 (amended): when both percentile computations succeed (so `p ∈ [0,100]`
and the array is nonempty), the Clipper logs no error, keeps the shape, and
maps every element `v` to `min high (max low v)` — the composition of the two
sequential passes.  Whenever `low ≤ high` (in particular for every `p ≥ 50`)
this coincides with the claimed clamp: elements below `low` become `low`,
elements above `high` become `high`, and no other element changes. -/
theorem C2_clipper_amended (m : Img ℚ) (p lo hi : ℚ) (i j : ℕ)
    (hhi : np_percentile (flatten m) p = Except.ok hi)
    (hlo : np_percentile (flatten m) (100 - p) = Except.ok lo)
    (h1 : i < m.rows) (h2 : j < m.cols) :
    (set_min_max_threshold_value m p).2 = false ∧
    (set_min_max_threshold_value m p).1.rows = m.rows ∧
    (set_min_max_threshold_value m p).1.cols = m.cols ∧
    (set_min_max_threshold_value m p).1.get 0 i j = min hi (max lo (m.get 0 i j)) ∧
    (lo ≤ hi →
      (set_min_max_threshold_value m p).1.get 0 i j = (claimedClip m lo hi).get 0 i j) := by
  have hunfold : set_min_max_threshold_value m p =
      (mapImg (fun v => if hi < v then hi else v)
        (mapImg (fun v => if v < lo then lo else v) m), false) := by
    unfold set_min_max_threshold_value
    rw [hhi, hlo]
  have hget : (set_min_max_threshold_value m p).1.get 0 i j =
      (fun v => if hi < v then hi else v) ((fun v => if v < lo then lo else v) (m.get 0 i j)) := by
    rw [hunfold]
    rw [get_mapImg (fun v => if hi < v then hi else v)
      (mapImg (fun v => if v < lo then lo else v) m) 0 0 h1 h2]
    rw [get_mapImg (fun v => if v < lo then lo else v) m 0 0 h1 h2]
  refine ⟨by rw [hunfold], by rw [hunfold]; rfl, by rw [hunfold]; rfl, ?_, ?_⟩
  · rw [hget]
    simp only [min_def, max_def]
    split_ifs <;> linarith
  · intro hle
    rw [hget]
    unfold claimedClip
    rw [get_mapImg (fun v => if v < lo then lo else if hi < v then hi else v) m 0 0 h1 h2]
    simp only []
    split_ifs <;> linarith

/-- Witness for C2 at `exWide = [[0, 10]]` with `p = 60`
(`high = 6`, `low = 4`), element `(0, 1)`. -/
theorem C2_witness :
    (set_min_max_threshold_value exWide 60).2 = false ∧
    (set_min_max_threshold_value exWide 60).1.rows = exWide.rows ∧
    (set_min_max_threshold_value exWide 60).1.cols = exWide.cols ∧
    (set_min_max_threshold_value exWide 60).1.get 0 0 1 = min 6 (max 4 (exWide.get 0 0 1)) ∧
    ((4:ℚ) ≤ 6 →
      (set_min_max_threshold_value exWide 60).1.get 0 0 1 = (claimedClip exWide 4 6).get 0 0 1) :=
  C2_clipper_amended exWide 60 4 6 0 1 (by with_unfolding_all decide)
    (by with_unfolding_all decide) (by decide) (by decide)

/-- C3 (confirmed): for a percentile outside `[0, 100]` the percentile
computation fails with `ValueError`, which is caught: the Clipper returns the
input array unchanged together with the logged-error flag, and — being a
total function — lets no exception escape. -/
theorem C3_invalid_percentile_identity (m : Img ℚ) (p : ℚ) (hp : p < 0 ∨ 100 < p) :
    set_min_max_threshold_value m p = (m, true) := by
  have he : np_percentile (flatten m) p = Except.error () := by
    unfold np_percentile
    rw [if_pos hp]
  unfold set_min_max_threshold_value
  rw [he]

/-- Witness for C3 at `exWide` with the out-of-range percentile `150`. -/
theorem C3_witness : set_min_max_threshold_value exWide 150 = (exWide, true) :=
  C3_invalid_percentile_identity exWide 150 (Or.inr (by norm_num))

/-- C9 (confirmed): the Clipper's error path is atomic — whenever the
logged-error flag is set (either percentile computation failed), the returned
array is exactly the input, because both percentile computations run before
the first masked assignment. -/
theorem C9_clipper_error_atomic (m : Img ℚ) (p : ℚ)
    (herr : (set_min_max_threshold_value m p).2 = true) :
    (set_min_max_threshold_value m p).1 = m := by
  unfold set_min_max_threshold_value at herr ⊢
  cases h1 : np_percentile (flatten m) p with
  | error e => simp only [h1]
  | ok hi =>
    cases h2 : np_percentile (flatten m) (100 - p) with
    | error e => simp only [h1, h2]
    | ok lo =>
      simp [h1, h2] at herr

/-- Witness for C9 at `exWide` with percentile `150` (error path taken). -/
theorem C9_witness : (set_min_max_threshold_value exWide 150).1 = exWide :=
  C9_clipper_error_atomic exWide 150 (by with_unfolding_all decide)

/-! ### Claims C4, C5, C10: Dynamic-Range Scaler -/

/-- C4 (confirmed): for every array whose maximum strictly exceeds its
minimum, every element of the scaled output is at most 255 (it is a natural
number, hence also at least 0), and scaling is monotonic: a strictly smaller
input value scales to a less-or-equal output value. -/
theorem C4_scaler_range_monotone (m : Img ℚ)
    (i i2 : Fin m.rows) (j j2 : Fin m.cols)
    (hlt : npMin (flatten m) < npMax (flatten m)) :
    (scale_image_data m).val i j ≤ 255 ∧
    (m.val i j < m.val i2 j2 →
      (scale_image_data m).val i j ≤ (scale_image_data m).val i2 j2) := by
  have hd : (0:ℚ) < scaleDivisor m := sub_pos.2 hlt
  have hub : m.val i2 j2 ≤ npMax (flatten m) := le_npMax (val_mem_flatten m i2 j2)
  have hq2 : (m.val i2 j2 - npMin (flatten m)) * 255 / scaleDivisor m ≤ 255 := by
    rw [div_le_iff hd]
    have h1 : m.val i2 j2 - npMin (flatten m) ≤ scaleDivisor m := by
      unfold scaleDivisor
      linarith
    linarith
  constructor
  · exact toUInt8_le_255 _
  · intro hab
    show toUInt8 ((m.val i j - npMin (flatten m)) * 255 / scaleDivisor m) ≤
      toUInt8 ((m.val i2 j2 - npMin (flatten m)) * 255 / scaleDivisor m)
    apply toUInt8_mono
    · apply (div_le_div_right hd).2
      linarith
    · exact hq2

/-- Witness for C4 at `exWide = [[0, 10]]`, positions `(0,0)` and `(0,1)`. -/
theorem C4_witness :
    (scale_image_data exWide).val ⟨0, by decide⟩ ⟨0, by decide⟩ ≤ 255 ∧
    (exWide.val ⟨0, by decide⟩ ⟨0, by decide⟩ < exWide.val ⟨0, by decide⟩ ⟨1, by decide⟩ →
      (scale_image_data exWide).val ⟨0, by decide⟩ ⟨0, by decide⟩ ≤
        (scale_image_data exWide).val ⟨0, by decide⟩ ⟨1, by decide⟩) :=
  C4_scaler_range_monotone exWide ⟨0, by decide⟩ ⟨0, by decide⟩ ⟨0, by decide⟩ ⟨1, by decide⟩
    (by with_unfolding_all decide)

/-- C5 (code bug, as the spec itself flags): on a constant-valued array the
scaler's divisor `image_data.max() - image_data.min()` is exactly 0, so the
Python code computes `0/0` — a NaN under IEEE floats, whose `uint8` cast is
undefined — instead of the defined fixed output the claim requires.  The
rational model evaluates the divisor to 0 at the concrete constant array. -/
theorem C5_zero_range_divisor : scaleDivisor exConst = 0 := by
  with_unfolding_all decide

/-- C10 (confirmed): under exact rational arithmetic, for an array whose
maximum strictly exceeds its minimum, a position holding the minimum scales
to exactly 0 and a position holding the maximum scales to exactly 255. -/
theorem C10_scaler_endpoints (m : Img ℚ) (i : Fin m.rows) (j : Fin m.cols)
    (hlt : npMin (flatten m) < npMax (flatten m)) :
    (m.val i j = npMin (flatten m) → (scale_image_data m).val i j = 0) ∧
    (m.val i j = npMax (flatten m) → (scale_image_data m).val i j = 255) := by
  have hd : npMax (flatten m) - npMin (flatten m) ≠ 0 := ne_of_gt (sub_pos.2 hlt)
  constructor
  · intro hmin
    show toUInt8 ((m.val i j - npMin (flatten m)) * 255 / scaleDivisor m) = 0
    rw [hmin, sub_self, zero_mul, zero_div]
    unfold toUInt8
    norm_num
  · intro hmax
    show toUInt8 ((m.val i j - npMin (flatten m)) * 255 / scaleDivisor m) = 255
    rw [hmax]
    have hdiv : (npMax (flatten m) - npMin (flatten m)) * 255 / scaleDivisor m = 255 := by
      unfold scaleDivisor
      rw [mul_comm, mul_div_assoc, div_self hd, mul_one]
    rw [hdiv]; with_unfolding_all decide

/-- Witness for C10 at `exWide = [[0, 10]]`, position `(0, 0)`. -/
theorem C10_witness :
    (exWide.val ⟨0, by decide⟩ ⟨0, by decide⟩ = npMin (flatten exWide) →
      (scale_image_data exWide).val ⟨0, by decide⟩ ⟨0, by decide⟩ = 0) ∧
    (exWide.val ⟨0, by decide⟩ ⟨0, by decide⟩ = npMax (flatten exWide) →
      (scale_image_data exWide).val ⟨0, by decide⟩ ⟨0, by decide⟩ = 255) :=
  C10_scaler_endpoints exWide ⟨0, by decide⟩ ⟨0, by decide⟩ (by with_unfolding_all decide)


/-! ### Claim C6: MIP Renderer -/

/-- C6 counterexample: on the non-square 1×2 projection `exWide`, the final
step of `process_mips` is not a 90-degree counter-clockwise rotation:
`img.rotate(90)` without `expand` keeps the 1×2 canvas, cropping the rotated
content and zero-padding, while a true rotation would produce a 2×1 image. -/
theorem C6_counterexample :
    (process_mips exWide 100 false).rows = 1 ∧
    (rot90ccw (scale_image_data (set_min_max_threshold_value exWide 100).1)).rows = 2 ∧
    process_mips exWide 100 false ≠
      rot90ccw (scale_image_data (set_min_max_threshold_value exWide 100).1) := by
  refine ⟨by with_unfolding_all decide, by with_unfolding_all decide, fun h => ?_⟩
  exact absurd (congrArg Img.rows h) (by with_unfolding_all decide)

/-- C6 (amended): for every square projection the Renderer applies exactly,
and in this order, the Intensity Clipper, the Dynamic-Range Scaler, the
conversion to an image, the optional photometric negative `v ↦ 255 - v` on
the already-scaled values, and finally the 90-degree counter-clockwise
rotation; the pixel formula makes the order visible: with the invert flag
set, output pixel `(i, j)` is `255 -` the scaled clipped value at
`(j, cols - 1 - i)`.  For a non-square projection the final step is instead
Pillow's cropping `rotate(90)` without `expand` (see the counterexample). -/
theorem C6_renderer_order (m : Img ℚ) (p : ℚ) (i j : ℕ) (hsq : m.rows = m.cols)
    (h1 : i < m.cols) (h2 : j < m.rows) :
    process_mips m p false =
      rot90ccw (scale_image_data (set_min_max_threshold_value m p).1) ∧
    process_mips m p true =
      rot90ccw (imageops_invert (scale_image_data (set_min_max_threshold_value m p).1)) ∧
    (process_mips m p true).get 0 i j =
      255 - (scale_image_data (set_min_max_threshold_value m p).1).get 0 j (m.cols - 1 - i) := by
  have crows := clip_rows m p
  have ccols := clip_cols m p
  have hsq0 : (scale_image_data (set_min_max_threshold_value m p).1).rows =
      (scale_image_data (set_min_max_threshold_value m p).1).cols := by
    show (set_min_max_threshold_value m p).1.rows = (set_min_max_threshold_value m p).1.cols
    rw [crows, ccols, hsq]
  have h0 : process_mips m p false =
      rot90ccw (scale_image_data (set_min_max_threshold_value m p).1) := by
    show pil_rotate90 (scale_image_data (set_min_max_threshold_value m p).1) = _
    unfold pil_rotate90
    rw [if_pos hsq0]
  have hsq1 : (imageops_invert (scale_image_data (set_min_max_threshold_value m p).1)).rows =
      (imageops_invert (scale_image_data (set_min_max_threshold_value m p).1)).cols := hsq0
  have h1t : process_mips m p true =
      rot90ccw (imageops_invert (scale_image_data (set_min_max_threshold_value m p).1)) := by
    show pil_rotate90 (imageops_invert (scale_image_data (set_min_max_threshold_value m p).1)) = _
    unfold pil_rotate90
    rw [if_pos hsq1]
  refine ⟨h0, h1t, ?_⟩
  rw [h1t]
  have hb1 : i < (imageops_invert (scale_image_data (set_min_max_threshold_value m p).1)).cols := by
    show i < (set_min_max_threshold_value m p).1.cols
    rw [ccols]
    exact h1
  have hb2 : j < (imageops_invert (scale_image_data (set_min_max_threshold_value m p).1)).rows := by
    show j < (set_min_max_threshold_value m p).1.rows
    rw [crows]
    exact h2
  rw [get_rot90ccw _ 0 hb1 hb2]
  have hcols : (imageops_invert (scale_image_data (set_min_max_threshold_value m p).1)).cols =
      m.cols := ccols
  rw [hcols]
  have hb3 : j < (scale_image_data (set_min_max_threshold_value m p).1).rows := hb2
  have hb4 : m.cols - 1 - i < (scale_image_data (set_min_max_threshold_value m p).1).cols := by
    show m.cols - 1 - i < (set_min_max_threshold_value m p).1.cols
    rw [ccols]
    omega
  unfold imageops_invert
  rw [get_mapImg (fun v => 255 - v) (scale_image_data (set_min_max_threshold_value m p).1)
    0 0 hb3 hb4]

/-- Witness for C6 at the square 2×2 projection `exSquare`, `p = 60`,
pixel `(0, 1)`. -/
theorem C6_witness :
    process_mips exSquare 60 false =
      rot90ccw (scale_image_data (set_min_max_threshold_value exSquare 60).1) ∧
    process_mips exSquare 60 true =
      rot90ccw (imageops_invert (scale_image_data (set_min_max_threshold_value exSquare 60).1)) ∧
    (process_mips exSquare 60 true).get 0 0 1 =
      255 - (scale_image_data (set_min_max_threshold_value exSquare 60).1).get 0 1
        (exSquare.cols - 1 - 0) :=
  C6_renderer_order exSquare 60 0 1 rfl (by decide) (by decide)

/-! ### Claims C7, C8: Pipeline Driver -/

/-- C7 counterexample: for the input file name `"a.nii.b"` the code's
`filename.split(".nii")[0]` truncates at the first occurrence of `".nii"`
anywhere in the name, producing base `"a"`, whereas stripping a volume-format
suffix (this name carries none) would leave `"a.nii.b"` intact. -/
theorem C7_counterexample :
    create_mips_file_name "a.nii.b" "MIPs_sag.png" = "a_MIPs_sag.png" ∧
    spec_mips_file_name "a.nii.b" "MIPs_sag.png" = "a.nii.b_MIPs_sag.png" ∧
    create_mips_file_name "a.nii.b" "MIPs_sag.png" ≠
      spec_mips_file_name "a.nii.b" "MIPs_sag.png" := by
  with_unfolding_all decide

/-- C7 (amended): when the load succeeds, the dimension check passes, and all
saves succeed, the driver writes exactly three files, in order sagittal,
coronal, axial, whose names are the input file name truncated at the first
occurrence of `".nii"` (the whole name when absent; for an ordinary
`name.nii` or `name.nii.gz` volume this is precisely the base name with its
volume suffix stripped) suffixed with `_MIPs_sag.png`, `_MIPs_cor.png`,
`_MIPs_ax.png`, joined under the configured output directory. -/
theorem C7_output_names (output_folder filename : String) (nf : Nifti) (p : ℚ)
    (inv : Bool) (save_ok : String → Bool) (h3 : nf.shape.length = 3)
    (hsave : ∀ s, save_ok s = true) :
    main output_folder (Except.ok nf) filename p inv save_ok =
      MainResult.done
        [os_path_join output_folder (create_mips_file_name filename "MIPs_sag.png"),
         os_path_join output_folder (create_mips_file_name filename "MIPs_cor.png"),
         os_path_join output_folder (create_mips_file_name filename "MIPs_ax.png")] := by
  have hchk : check_nifti_dimension nf.shape = true := by
    unfold check_nifti_dimension
    simp [h3]
  unfold main
  simp [hchk, hsave]

/-- Witness for C7 on a successful run over a 2×2×2 volume named
`"scan.nii.gz"`. -/
theorem C7_witness :
    main "out" (Except.ok ⟨[2, 2, 2], fun _ _ _ => 0⟩) "scan.nii.gz" (985/10) true
      (fun _ => true) =
      MainResult.done
        [os_path_join "out" (create_mips_file_name "scan.nii.gz" "MIPs_sag.png"),
         os_path_join "out" (create_mips_file_name "scan.nii.gz" "MIPs_cor.png"),
         os_path_join "out" (create_mips_file_name "scan.nii.gz" "MIPs_ax.png")] :=
  C7_output_names "out" "scan.nii.gz" ⟨[2, 2, 2], fun _ _ _ => 0⟩ (985/10) true
    (fun _ => true) rfl (fun _ => rfl)

/-- C8 (confirmed): for a loaded volume whose shape does not have exactly 3
(integer-valued) dimensions, the driver logs an error and exits with status 1
before rendering or writing anything — no output file is produced, whatever
the percentile, invert flag, or writer behavior. -/
theorem C8_dimension_check_aborts (output_folder filename : String) (nf : Nifti) (p : ℚ)
    (inv : Bool) (save_ok : String → Bool) (hbad : nf.shape.length ≠ 3) :
    main output_folder (Except.ok nf) filename p inv save_ok =
      MainResult.exited 1 true [] := by
  have hchk : check_nifti_dimension nf.shape = false := by
    unfold check_nifti_dimension
    simp [hbad]
  unfold main
  simp [hchk]

/-- Witness for C8 with the 2-dimensional shape `[4, 4]`. -/
theorem C8_witness :
    main "out" (Except.ok ⟨[4, 4], fun _ _ _ => 0⟩) "scan.nii" (985/10) true (fun _ => true) =
      MainResult.exited 1 true [] :=
  C8_dimension_check_aborts "out" "scan.nii" ⟨[4, 4], fun _ _ _ => 0⟩ (985/10) true
    (fun _ => true) (by decide)

end MipsConverter
